import Mathlib

/-!
Verification of the BrachyD2ccEval dose-volume / radiobiology engine.

The Python sources are shallowly embedded: exact rational arithmetic (ℚ) models the
floating-point code wherever no square root occurs, and ℝ with `Real.sqrt` models the
constraint solver.  Python's `round` builtin (round half to even) is modelled by
`pyround`/`round2`/`round4` below.
-/

set_option maxHeartbeats 1000000

/-- Python round-half-to-even of a value to an integer: the semantics of the builtin
`round(x)` applied to exact values. -/
def pyround {α : Type} [LinearOrderedField α] [FloorRing α] [DecidableEq α] (x : α) : ℤ :=
  if x - (⌊x⌋ : α) = 1 / 2 then (if ⌊x⌋ % 2 = 0 then ⌊x⌋ else ⌊x⌋ + 1) else round x

/-- Python `round(x, 2)` on exact values: round half-to-even at the second decimal. -/
def round2 {α : Type} [LinearOrderedField α] [FloorRing α] [DecidableEq α] (x : α) : α :=
  (pyround (x * 100) : α) / 100

/-- Python `round(x, 4)` on exact values, used for the z-slice keys of
`calculate_contour_volumes`. -/
def round4 {α : Type} [LinearOrderedField α] [FloorRing α] [DecidableEq α] (x : α) : α :=
  (pyround (x * 10000) : α) / 10000

/-- Embeds `alpha_beta_ratios.get(organ_name, alpha_beta_ratios["Default"])` from
src/src/calculations.py: an association-list lookup with fallback to the mandatory
"Default" entry (0 stands in for the KeyError of a table lacking it, a case excluded by
the data model). -/
def lookupAB {α : Type} [Zero α] (table : List (String × α)) (organ : String) : α :=
  match table.lookup organ with
  | some v => v
  | none => (table.lookup "Default").getD 0

/-- Return record of `calculate_bed_and_eqd2` and `calculate_point_dose_bed_eqd2`
(src/src/calculations.py): the returned 5-tuple
(total_bed, eqd2, bed_brachy, bed_ebrt, bed_previous_brachy). -/
structure BedResult (α : Type) where
  total_bed : α
  eqd2 : α
  bed_brachy : α
  bed_ebrt : α
  bed_previous_brachy : α
  deriving DecidableEq

/-- Embeds the arithmetic of `calculate_bed_and_eqd2` (src/src/calculations.py lines
115-135) before the final `round(..., 2)` calls, with the α/β lookup already resolved. -/
def bed_eqd2_raw {α : Type} [LinearOrderedField α]
    (alpha_beta total_dose dose_per_fraction ebrt_dose previous_brachy_bed : α) :
    BedResult α :=
  let bed_brachy := total_dose * (1 + dose_per_fraction / alpha_beta)
  let bed_ebrt := ebrt_dose * (1 + 2 / alpha_beta)
  let total_bed := bed_brachy + bed_ebrt + previous_brachy_bed
  let eqd2 := total_bed / (1 + 2 / alpha_beta)
  ⟨total_bed, eqd2, bed_brachy, bed_ebrt, previous_brachy_bed⟩

/-- Embeds `calculate_bed_and_eqd2` (src/src/calculations.py lines 115-135): α/β lookup,
linear-quadratic arithmetic, and the final rounding of each returned component to two
decimals. -/
def calculate_bed_and_eqd2 {α : Type} [LinearOrderedField α] [FloorRing α] [DecidableEq α]
    (alpha_beta_ratios : List (String × α)) (total_dose dose_per_fraction : α)
    (organ_name : String) (ebrt_dose previous_brachy_bed : α) : BedResult α :=
  let r := bed_eqd2_raw (lookupAB alpha_beta_ratios organ_name) total_dose
    dose_per_fraction ebrt_dose previous_brachy_bed
  ⟨round2 r.total_bed, round2 r.eqd2, round2 r.bed_brachy, round2 r.bed_ebrt,
    round2 r.bed_previous_brachy⟩

/-- Embeds the arithmetic of `calculate_point_dose_bed_eqd2` (src/src/calculations.py
lines 178-204) before rounding; note the 1.8 Gy/fraction (= 9/5) EBRT convention used
there, against 2 Gy/fraction in `calculate_bed_and_eqd2`. -/
def point_dose_bed_eqd2_raw {α : Type} [LinearOrderedField α]
    (alpha_beta point_dose number_of_fractions ebrt_dose previous_brachy_bed : α) :
    BedResult α :=
  let total_dose := point_dose * number_of_fractions
  let bed_brachy := total_dose * (1 + point_dose / alpha_beta)
  let bed_ebrt := ebrt_dose * (1 + (9 / 5) / alpha_beta)
  let total_bed := bed_brachy + bed_ebrt + previous_brachy_bed
  ⟨total_bed, total_bed / (1 + 2 / alpha_beta), bed_brachy, bed_ebrt, previous_brachy_bed⟩

/-- Embeds `calculate_point_dose_bed_eqd2` (src/src/calculations.py lines 178-204). -/
def calculate_point_dose_bed_eqd2 {α : Type} [LinearOrderedField α] [FloorRing α]
    [DecidableEq α] (alpha_beta_ratios : List (String × α))
    (point_dose number_of_fractions : α) (organ_name : String)
    (ebrt_dose previous_brachy_bed : α) : BedResult α :=
  let r := point_dose_bed_eqd2_raw (lookupAB alpha_beta_ratios organ_name) point_dose
    number_of_fractions ebrt_dose previous_brachy_bed
  ⟨round2 r.total_bed, round2 r.eqd2, round2 r.bed_brachy, round2 r.bed_ebrt,
    round2 r.bed_previous_brachy⟩

/-- Embeds `calculate_dose_to_meet_constraint` (src/src/calculations.py lines 137-176) up
to its final `round(..., 2)`: EQD2-to-BED conversion of the limit, remaining-budget
computation, quadratic discriminant, and the two sign checks, with `none` modelling the
`return None` branches (negative discriminant, negative root). -/
noncomputable def solve_raw
    (alpha_beta eqd2_constraint number_of_fractions ebrt_dose previous_brachy_bed : ℝ) :
    Option ℝ :=
  let k_factor := 1 + 2 / alpha_beta
  let total_bed_target := eqd2_constraint * k_factor
  let bed_ebrt := ebrt_dose * k_factor
  let bed_brachy_needed := total_bed_target - bed_ebrt - previous_brachy_bed
  let a := number_of_fractions / alpha_beta
  let b := number_of_fractions
  let c := -bed_brachy_needed
  let discriminant := b ^ 2 - 4 * a * c
  if discriminant < 0 then none
  else
    let dose := (-b + Real.sqrt discriminant) / (2 * a)
    if dose < 0 then none else some dose

/-- Embeds `calculate_dose_to_meet_constraint` (src/src/calculations.py lines 137-176)
including the α/β lookup and the final rounding of the returned dose to two decimals. -/
noncomputable def calculate_dose_to_meet_constraint (alpha_beta_ratios : List (String × ℝ))
    (eqd2_constraint : ℝ) (organ_name : String)
    (number_of_fractions ebrt_dose previous_brachy_bed : ℝ) : Option ℝ :=
  (solve_raw (lookupAB alpha_beta_ratios organ_name) eqd2_constraint number_of_fractions
    ebrt_dose previous_brachy_bed).map round2

/-! Evaluation lemmas for the Python rounding model. -/

lemma pyround_intCast {α : Type} [LinearOrderedField α] [FloorRing α] [DecidableEq α]
    (n : ℤ) : pyround ((n : α)) = n := by
  unfold pyround
  rw [Int.floor_intCast]
  rw [if_neg, round_intCast]
  intro h
  rw [sub_self] at h
  exact absurd h.symm (by norm_num)

lemma pyround_eq_low {α : Type} [LinearOrderedField α] [FloorRing α] [DecidableEq α]
    (x : α) (n : ℤ) (h1 : (n : α) ≤ x) (h2 : x < (n : α) + 1 / 2) : pyround x = n := by
  have hf : ⌊x⌋ = n := Int.floor_eq_iff.mpr ⟨h1, by linarith⟩
  unfold pyround
  rw [hf, if_neg, round_eq]
  · exact Int.floor_eq_iff.mpr ⟨by linarith, by linarith⟩
  · intro h
    rw [sub_eq_iff_eq_add] at h
    rw [h] at h2
    linarith

lemma pyround_eq_high {α : Type} [LinearOrderedField α] [FloorRing α] [DecidableEq α]
    (x : α) (n : ℤ) (h1 : (n : α) + 1 / 2 < x) (h2 : x < (n : α) + 1) : pyround x = n + 1 := by
  have hf : ⌊x⌋ = n := Int.floor_eq_iff.mpr ⟨by linarith, by linarith⟩
  unfold pyround
  rw [hf, if_neg, round_eq]
  · exact Int.floor_eq_iff.mpr ⟨by push_cast; linarith, by push_cast; linarith⟩
  · intro h
    rw [sub_eq_iff_eq_add] at h
    rw [h] at h1
    linarith

lemma round2_eq_self {α : Type} [LinearOrderedField α] [FloorRing α] [DecidableEq α]
    (x : α) (n : ℤ) (h : x * 100 = (n : α)) : round2 x = x := by
  unfold round2
  rw [h, pyround_intCast, ← h]
  field_simp

lemma round2_eq_low {α : Type} [LinearOrderedField α] [FloorRing α] [DecidableEq α]
    (x : α) (n : ℤ) (h1 : (n : α) ≤ x * 100) (h2 : x * 100 < (n : α) + 1 / 2) :
    round2 x = (n : α) / 100 := by
  unfold round2
  rw [pyround_eq_low (x * 100) n h1 h2]

lemma round2_eq_high {α : Type} [LinearOrderedField α] [FloorRing α] [DecidableEq α]
    (x : α) (n : ℤ) (h1 : (n : α) + 1 / 2 < x * 100) (h2 : x * 100 < (n : α) + 1) :
    round2 x = ((n : α) + 1) / 100 := by
  unfold round2
  rw [pyround_eq_high (x * 100) n h1 h2]
  push_cast
  ring

lemma round4_eq_self {α : Type} [LinearOrderedField α] [FloorRing α] [DecidableEq α]
    (x : α) (n : ℤ) (h : x * 10000 = (n : α)) : round4 x = x := by
  unfold round4
  rw [h, pyround_intCast, ← h]
  field_simp

/-! Geometry: src/calculations.py (top-level file). -/

/-- A 3-vector of rationals: a patient-space point, direction cosines, or a voxel-space
point. -/
structure Vec3 where
  x : ℚ
  y : ℚ
  z : ℚ
  deriving DecidableEq

/-- Embeds `np.cross(row_vec, col_vec)` (src/calculations.py line 13). -/
def crossVec (a b : Vec3) : Vec3 :=
  ⟨a.y * b.z - a.z * b.y, a.z * b.x - a.x * b.z, a.x * b.y - a.y * b.x⟩

/-- A 3x3 rational matrix with row-major entry fields. -/
structure Mat3 where
  a00 : ℚ
  a01 : ℚ
  a02 : ℚ
  a10 : ℚ
  a11 : ℚ
  a12 : ℚ
  a20 : ℚ
  a21 : ℚ
  a22 : ℚ
  deriving DecidableEq

/-- Embeds `np.array([row_vec, col_vec, slice_vec]).T` (src/calculations.py line 16):
the matrix whose columns are the row, column and slice direction vectors. -/
def rotationMatrix (row_vec col_vec : Vec3) : Mat3 :=
  let slice_vec := crossVec row_vec col_vec
  ⟨row_vec.x, col_vec.x, slice_vec.x,
   row_vec.y, col_vec.y, slice_vec.y,
   row_vec.z, col_vec.z, slice_vec.z⟩

/-- Determinant of a 3x3 matrix. -/
def det3 (m : Mat3) : ℚ :=
  m.a00 * (m.a11 * m.a22 - m.a12 * m.a21) - m.a01 * (m.a10 * m.a22 - m.a12 * m.a20)
    + m.a02 * (m.a10 * m.a21 - m.a11 * m.a20)

/-- Matrix-vector product. -/
def mulVec (m : Mat3) (v : Vec3) : Vec3 :=
  ⟨m.a00 * v.x + m.a01 * v.y + m.a02 * v.z,
   m.a10 * v.x + m.a11 * v.y + m.a12 * v.z,
   m.a20 * v.x + m.a21 * v.y + m.a22 * v.z⟩

/-- Exact inverse of a 3x3 matrix via the adjugate; `none` models numpy's LinAlgError on
a singular matrix. -/
def inv3 (m : Mat3) : Option Mat3 :=
  let d := det3 m
  if d = 0 then none
  else some
    ⟨(m.a11 * m.a22 - m.a12 * m.a21) / d, (m.a02 * m.a21 - m.a01 * m.a22) / d,
     (m.a01 * m.a12 - m.a02 * m.a11) / d, (m.a12 * m.a20 - m.a10 * m.a22) / d,
     (m.a00 * m.a22 - m.a02 * m.a20) / d, (m.a02 * m.a10 - m.a00 * m.a12) / d,
     (m.a10 * m.a21 - m.a11 * m.a20) / d, (m.a01 * m.a20 - m.a00 * m.a21) / d,
     (m.a00 * m.a11 - m.a01 * m.a10) / d⟩

/-- Embeds lines 9-24 of src/calculations.py: the 4x4 affine from the rotation matrix and
the translation `image_position`, and `np.linalg.inv` of it.  The inverse of [R t; 0 1]
is [R^-1, -R^-1 t; 0 1], returned as the pair (R^-1, -R^-1 t); `none` models the
LinAlgError raised on a singular matrix. -/
def invAffine (image_orientation : Vec3 × Vec3) (image_position : Vec3) :
    Option (Mat3 × Vec3) :=
  let R := rotationMatrix image_orientation.1 image_orientation.2
  (inv3 R).map fun Ri =>
    let w := mulVec Ri image_position
    (Ri, ⟨-w.x, -w.y, -w.z⟩)

/-- Embeds lines 26-37 of src/calculations.py for one contour: apply the inverse affine
to each point, then divide the resulting x component by pixel_spacing[0] and the y
component by pixel_spacing[1]. -/
def transform_points (Ri : Mat3) (t : Vec3) (pixel_spacing : ℚ × ℚ)
    (contour : List Vec3) : List Vec3 :=
  contour.map fun p =>
    let q := mulVec Ri p
    ⟨(q.x + t.x) / pixel_spacing.1, (q.y + t.y) / pixel_spacing.2, q.z + t.z⟩

/-- Embeds `transform_contour_to_dose_grid` (src/calculations.py lines 7-38). -/
def transform_contour_to_dose_grid (contour_data : List (List Vec3))
    (image_position : Vec3) (pixel_spacing : ℚ × ℚ)
    (image_orientation : Vec3 × Vec3) : Option (List (List Vec3)) :=
  (invAffine image_orientation image_position).map fun Rt =>
    contour_data.map (transform_points Rt.1 Rt.2 pixel_spacing)

/-! Mask rasterization and the top-level DVH engine: src/calculations.py lines 40-89. -/

/-- Shape and voxel values of the numpy dose grid: `dose_grid.shape = (n0, n1, n2)` and
`val z y x` its entries. -/
structure NdGrid where
  n0 : ℕ
  n1 : ℕ
  n2 : ℕ
  val : ℕ → ℕ → ℕ → ℚ

/-- First index of the minimum of `|w - z|` over the list, `np.abs(z_offsets - z).argmin()`. -/
def argminAbsAux (z : ℚ) : List ℚ → ℕ → ℕ → ℚ → ℕ
  | [], _, besti, _ => besti
  | w :: rest, i, besti, bestv =>
    if |w - z| < bestv then argminAbsAux z rest (i + 1) i (|w - z|)
    else argminAbsAux z rest (i + 1) besti bestv

/-- Models `(np.abs(z_offsets - z_mm)).argmin()` (src/calculations.py line 48). -/
def argminAbs (zs : List ℚ) (z : ℚ) : ℕ :=
  match zs with
  | [] => 0
  | w :: rest => argminAbsAux z rest 1 0 (|w - z|)

/-- Models `np.clip(v, lo, hi)` on one scalar. -/
def clipQ (v lo hi : ℚ) : ℚ := max lo (min v hi)

/-- Abstract interface for `skimage.draw.polygon(r, c, shape)`: from the polygon's row
and column vertex coordinate lists and the slice shape, the list of (row, col) filled
pixel indices.  The scan-line fill is an external library, not code of this repository,
so it is a parameter of the embedding. -/
def FillFn : Type := List ℚ → List ℚ → ℕ × ℕ → List (ℕ × ℕ)

/-- Embeds the loop body of `create_mask_from_contours` (src/calculations.py lines
44-56) for one transformed contour: nearest slice index by `argmin`, skip out-of-range
slices, clip in-plane coordinates to the slice bounds, fill the polygon. -/
def contourPixels (fill : FillFn) (shape : ℕ × ℕ × ℕ) (gfov : List ℚ)
    (contour_points : List Vec3) : List (ℕ × ℕ × ℕ) :=
  let x_voxels := contour_points.map Vec3.x
  let y_voxels := contour_points.map Vec3.y
  let z_mm := (contour_points.headD ⟨0, 0, 0⟩).z
  let z_slice_index := argminAbs gfov z_mm
  if z_slice_index ≥ shape.1 then []
  else
    let slice_shape := (shape.2.1, shape.2.2)
    let y_clipped := y_voxels.map fun v => clipQ v 0 ((slice_shape.1 : ℚ) - 1)
    let x_clipped := x_voxels.map fun v => clipQ v 0 ((slice_shape.2 : ℚ) - 1)
    (fill y_clipped x_clipped slice_shape).map fun rc => (z_slice_index, rc.1, rc.2)

/-- Embeds `create_mask_from_contours` (src/calculations.py lines 40-56): the set of
voxels set to True, as a list of (z, row, col) indices (possibly with repeats; numpy's
boolean mask collapses repeats, handled at the use site by `dedup`). -/
def create_mask_from_contours (fill : FillFn) (transformed_contours : List (List Vec3))
    (dose_grid_shape : ℕ × ℕ × ℕ) (grid_frame_offset_vector : List ℚ) :
    List (ℕ × ℕ × ℕ) :=
  (transformed_contours.map (contourPixels fill dose_grid_shape grid_frame_offset_vector)).flatten

/-- Insert into a descending-sorted list. -/
def insertDesc (a : ℚ) : List ℚ → List ℚ
  | [] => [a]
  | b :: t => if b ≤ a then a :: b :: t else b :: insertDesc a t

/-- Models `np.sort(doses)[::-1]`: the dose population in descending order. -/
def sortDesc (l : List ℚ) : List ℚ := l.foldr insertDesc []

/-- Python list indexing semantics: a negative index wraps from the end; a genuinely
out-of-range access (an IndexError in Python) is modelled as 0 and is unreachable in the
theorems below. -/
def pyIndex (l : List ℚ) (i : ℤ) : ℚ :=
  let j := if i < 0 then i + l.length else i
  if j < 0 then 0 else l.getD j.toNat 0

/-- Embeds lines 73-79 of src/calculations.py: the "hottest 2 cc" dose from the masked
per-voxel dose population and the voxel volume, 0 when the organ volume is below 2 cc. -/
def d2cc_from_doses (organ_doses : List ℚ) (voxel_volume_cc : ℚ) : ℚ :=
  let organ_volume_cc := (organ_doses.length : ℚ) * voxel_volume_cc
  if 2 ≤ organ_volume_cc then
    let voxels_for_2cc := pyround (2 / voxel_volume_cc)
    pyIndex (sortDesc organ_doses) (voxels_for_2cc - 1)
  else 0

/-- Per-structure record of the top-level `get_dvh` (src/calculations.py lines 83-87). -/
structure DvhRec where
  volume_cc : ℚ
  d2cc_gy_per_fraction : ℚ
  total_d2cc_gy : ℚ
  deriving DecidableEq

/-- Embeds lines 72-87 of src/calculations.py: organ volume from the voxel count, the
d2cc metric, and the rounded record stored for one structure. -/
def dvh_entry (organ_doses : List ℚ) (voxel_volume_cc number_of_fractions : ℚ) : DvhRec :=
  let organ_volume_cc := (organ_doses.length : ℚ) * voxel_volume_cc
  let d2cc := d2cc_from_doses organ_doses voxel_volume_cc
  ⟨round2 organ_volume_cc, round2 d2cc, round2 (d2cc * number_of_fractions)⟩

/-- Embeds the top-level `get_dvh` (src/calculations.py lines 58-89): per structure,
transform the contours, rasterize the mask, `continue` past all-false masks, extract the
dose population through the mask (repeated voxels collapse, as in numpy boolean
indexing), and store the record; the outer `none` models the LinAlgError of a singular
orientation, raised inside `transform_contour_to_dose_grid`. -/
def get_dvh (fill : FillFn) (structure_data : List (String × List (List Vec3)))
    (dose_grid : NdGrid) (dose_scaling : ℚ) (image_position : Vec3)
    (pixel_spacing : ℚ × ℚ) (grid_frame_offset_vector : List ℚ)
    (number_of_fractions : ℚ) (image_orientation : Vec3 × Vec3) :
    Option (List (String × DvhRec)) :=
  let slice_thickness :=
    |grid_frame_offset_vector.getD 1 0 - grid_frame_offset_vector.getD 0 0|
  let voxel_volume_cc := pixel_spacing.1 * pixel_spacing.2 * slice_thickness / 1000
  (invAffine image_orientation image_position).map fun Rt =>
    structure_data.filterMap fun nd =>
      let transformed := nd.2.map (transform_points Rt.1 Rt.2 pixel_spacing)
      let mask := create_mask_from_contours fill transformed
        (dose_grid.n0, dose_grid.n1, dose_grid.n2) grid_frame_offset_vector
      if mask = [] then none
      else
        let voxels := mask.dedup
        let organ_doses := voxels.map fun v => dose_grid.val v.1 v.2.1 v.2.2 * dose_scaling
        some (nd.1, dvh_entry organ_doses voxel_volume_cc number_of_fractions)

/-! Volume integrator: `calculate_contour_volumes`, src/src/calculations.py lines 17-44. -/

/-- Models `np.dot` of two equal-length coordinate vectors. -/
def dotL (a b : List ℚ) : ℚ := (List.zipWith (· * ·) a b).sum

/-- Models `np.roll(v, 1)`: rotate the vector right by one position. -/
def rollRight (l : List ℚ) : List ℚ :=
  match l with
  | [] => []
  | x :: xs => (x :: xs).getLastD 0 :: (x :: xs).dropLast

/-- Embeds the shoelace expression of src/src/calculations.py lines 39-40:
`0.5 * np.abs(np.dot(x, np.roll(y, 1)) - np.dot(y, np.roll(x, 1)))`. -/
def shoelace (poly : List (ℚ × ℚ)) : ℚ :=
  let xs := poly.map Prod.fst
  let ys := poly.map Prod.snd
  1 / 2 * |dotL xs (rollRight ys) - dotL ys (rollRight xs)|

/-- Spec-shaped shoelace formula, following the specification's words: the cyclic sum
`0.5 * |sum of (x_i * y_{i+1} - x_{i+1} * y_i)|` with vertices treated cyclically. -/
def shoelace_spec (poly : List (ℚ × ℚ)) : ℚ :=
  let xs := poly.map Prod.fst
  let ys := poly.map Prod.snd
  1 / 2 * |dotL xs (ys.rotate 1) - dotL (xs.rotate 1) ys|

/-- Rounded z-key of one contour slice: `round(points[0, 2], 4)`
(src/src/calculations.py line 30). -/
def zKey (c : List Vec3) : ℚ := round4 ((c.headD ⟨0, 0, 0⟩).z)

/-- The distinct rounded z-levels of a structure, in first-appearance order (Python dict
key insertion order; the order is irrelevant after sorting). -/
def zLevels (contours : List (List Vec3)) : List ℚ := (contours.map zKey).dedup

/-- Total shoelace area of the polygons grouped at one z-level
(src/src/calculations.py lines 39-40). -/
def areaAt (contours : List (List Vec3)) (z : ℚ) : ℚ :=
  ((contours.filter fun c => zKey c = z).map fun c =>
    shoelace (c.map fun p => (p.x, p.y))).sum

/-- Insert into an ascending-sorted list. -/
def insertAsc (a : ℚ) : List ℚ → List ℚ
  | [] => [a]
  | b :: t => if a ≤ b then a :: b :: t else b :: insertAsc a t

/-- Models Python `sorted` on a list of rationals. -/
def sortAsc (l : List ℚ) : List ℚ := l.foldr insertAsc []

/-- Embeds the per-structure body of `calculate_contour_volumes`
(src/src/calculations.py lines 27-44): group contour slices by rounded z, sort the z
keys ascending, sum the trapezoidal slab `(area1 + area2) / 2 * |z1 - z2|` over each
adjacent pair, and divide by 1000 (mm^3 to cm^3).  With at most one z-level the pair
list is empty and the sum is 0, exactly as the `len(sorted_z) > 1` guard there. -/
def contour_volume_cc (contours : List (List Vec3)) : ℚ :=
  let sorted_z := sortAsc (zLevels contours)
  let slabs := (sorted_z.zip sorted_z.tail).map fun p =>
    (areaAt contours p.1 + areaAt contours p.2) / 2 * |p.1 - p.2|
  slabs.sum / 1000

/-! Point dose lookup: `get_dose_at_point`, src/src/calculations.py lines 46-86. -/

/-- Embeds `get_dose_at_point` (src/src/calculations.py lines 46-86).  `none` for the
dose grid models Python `None`; `none` for the point models falsy (empty) coordinates.
Per the source: z-spacing from the first two grid frame offsets (defaulting to 1.0 for a
single-slice grid), nearest-neighbour rounding of the fractional voxel coordinates,
bounds check on all three axes returning 0.0 out of bounds, else the scaled voxel dose. -/
def get_dose_at_point (dose_grid : Option NdGrid) (dose_scaling : ℚ)
    (image_position_patient : Vec3) (pixel_spacing : ℚ × ℚ)
    (grid_frame_offset_vector : List ℚ) (point_coordinates : Option Vec3) : ℚ :=
  match dose_grid, point_coordinates with
  | none, _ => 0
  | _, none => 0
  | some g, some p =>
    let spacing_z := if grid_frame_offset_vector.length > 1 then
        grid_frame_offset_vector.getD 1 0 - grid_frame_offset_vector.getD 0 0
      else 1
    let voxel_x := (p.x - image_position_patient.x) / pixel_spacing.1
    let voxel_y := (p.y - image_position_patient.y) / pixel_spacing.2
    let voxel_z := (p.z - grid_frame_offset_vector.getD 0 0) / spacing_z
    let idx_x := pyround voxel_x
    let idx_y := pyround voxel_y
    let idx_z := pyround voxel_z
    if 0 ≤ idx_x ∧ idx_x < (g.n2 : ℤ) ∧ 0 ≤ idx_y ∧ idx_y < (g.n1 : ℤ) ∧
        0 ≤ idx_z ∧ idx_z < (g.n0 : ℤ) then
      g.val idx_z.toNat idx_y.toNat idx_x.toNat * dose_scaling
    else 0

/-! Claim C1: the radiobiological converter's formulas and its featured instance. -/

/-- C1 counterexample: the converter does not return the brachytherapy BED
`N*d*(1 + d/alpha_beta)` literally — at d = 0.01 Gy, N = 1, alpha/beta = 3 the exact
value is 301/30000 Gy but the function returns it rounded to two decimals, 0.01 Gy. -/
theorem C1_counterexample :
    (calculate_bed_and_eqd2 [("Default", (3 : ℚ))] (1 * (1 / 100)) (1 / 100) "Bladder"
      0 0).bed_brachy ≠ 1 * (1 / 100) * (1 + (1 / 100) / 3) := by
  have hl : lookupAB [("Default", (3 : ℚ))] "Bladder" = 3 := by
    simp [lookupAB, List.lookup]
  simp only [calculate_bed_and_eqd2, hl]
  have hraw : (bed_eqd2_raw (3 : ℚ) (1 * (1 / 100)) (1 / 100) 0 0).bed_brachy
      = 301 / 30000 := by
    simp only [bed_eqd2_raw]
    norm_num
  rw [hraw, round2_eq_low (301 / 30000 : ℚ) 1 (by norm_num) (by norm_num)]
  norm_num

/-- C1 (amended): for every table resolving the organ to αβ, per-fraction dose d,
fraction count N (total dose N·d), EBRT dose e and prior BED p, the converter returns
the five quantities brachy BED = N·d·(1+d/αβ), EBRT BED = e·(1+2/αβ), prior BED = p,
total BED = their sum, and EQD2 = total/(1+2/αβ), each rounded to two decimals
(round-half-to-even); the featured instance αβ=3, d=6, N=1, e=p=0 gives exactly
BED 18 Gy and EQD2 10.8 Gy since those have at most two decimals. -/
theorem C1_converter_formulas {α : Type} [LinearOrderedField α] [FloorRing α]
    [DecidableEq α] (table : List (String × α)) (organ : String) (ab d N e p : α)
    (h : lookupAB table organ = ab) :
    calculate_bed_and_eqd2 table (N * d) d organ e p =
      ⟨round2 (N * d * (1 + d / ab) + e * (1 + 2 / ab) + p),
       round2 ((N * d * (1 + d / ab) + e * (1 + 2 / ab) + p) / (1 + 2 / ab)),
       round2 (N * d * (1 + d / ab)), round2 (e * (1 + 2 / ab)), round2 p⟩ := by
  simp only [calculate_bed_and_eqd2, bed_eqd2_raw, h]

/-- C1 witness: the featured instance, via `C1_converter_formulas`. -/
theorem C1_witness :
    lookupAB [("Default", (3 : ℚ))] "Bladder" = 3 ∧
    calculate_bed_and_eqd2 [("Default", (3 : ℚ))] (1 * 6) 6 "Bladder" 0 0 =
      ⟨18, 54 / 5, 18, 0, 0⟩ := by
  have hl : lookupAB [("Default", (3 : ℚ))] "Bladder" = 3 := by
    simp [lookupAB, List.lookup]
  refine ⟨hl, ?_⟩
  rw [C1_converter_formulas [("Default", (3 : ℚ))] "Bladder" 3 6 1 0 0 hl]
  have e1 : (1 : ℚ) * 6 * (1 + 6 / 3) + 0 * (1 + 2 / 3) + 0 = 18 := by norm_num
  have e2 : ((1 : ℚ) * 6 * (1 + 6 / 3) + 0 * (1 + 2 / 3) + 0) / (1 + 2 / 3) = 54 / 5 := by
    norm_num
  have e3 : (1 : ℚ) * 6 * (1 + 6 / 3) = 18 := by norm_num
  have e4 : (0 : ℚ) * (1 + 2 / 3) = 0 := by norm_num
  rw [e2, e1, e3, e4]
  rw [round2_eq_self 18 1800 (by norm_num), round2_eq_self (54 / 5) 1080 (by norm_num),
    round2_eq_self 0 0 (by norm_num)]

/-! Claim C9: EBRT BED conventions of the two converters. -/

/-- C9 counterexample: at EBRT dose 45 Gy and αβ = 3, the DVH-based converter returns
EBRT BED 75 Gy (2 Gy/fraction convention) while the point-dose converter returns 72 Gy
(1.8 Gy/fraction convention), so the two do not compute the EBRT component the same
way. -/
theorem C9_counterexample :
    (calculate_bed_and_eqd2 [("Default", (3 : ℚ))] 0 0 "Rectum" 45 0).bed_ebrt = 75 ∧
    (calculate_point_dose_bed_eqd2 [("Default", (3 : ℚ))] 0 1 "Rectum" 45 0).bed_ebrt = 72 ∧
    (75 : ℚ) ≠ 72 := by
  have hl : lookupAB [("Default", (3 : ℚ))] "Rectum" = 3 := by
    simp [lookupAB, List.lookup]
  refine ⟨?_, ?_, by norm_num⟩
  · simp only [calculate_bed_and_eqd2, hl]
    have hraw : (bed_eqd2_raw (3 : ℚ) 0 0 45 0).bed_ebrt = 75 := by
      simp only [bed_eqd2_raw]
      norm_num
    rw [hraw, round2_eq_self 75 7500 (by norm_num)]
  · simp only [calculate_point_dose_bed_eqd2, hl]
    have hraw : (point_dose_bed_eqd2_raw (3 : ℚ) 0 1 45 0).bed_ebrt = 72 := by
      simp only [point_dose_bed_eqd2_raw]
      norm_num
    rw [hraw, round2_eq_self 72 7200 (by norm_num)]

/-- C9 (amended): the DVH-based converter computes the EBRT BED at the 2 Gy/fraction
convention, `e*(1 + 2/αβ)`, while the point-dose converter uses 1.8 Gy/fraction,
`e*(1 + 1.8/αβ)`; for αβ ≠ 0 the two EBRT BED components coincide exactly when the EBRT
dose is 0. -/
theorem C9_ebrt_conventions {α : Type} [LinearOrderedField α] (ab e td d pd N p : α)
    (hab : ab ≠ 0) :
    (bed_eqd2_raw ab td d e p).bed_ebrt = e * (1 + 2 / ab) ∧
    (point_dose_bed_eqd2_raw ab pd N e p).bed_ebrt = e * (1 + (9 / 5) / ab) ∧
    ((bed_eqd2_raw ab td d e p).bed_ebrt = (point_dose_bed_eqd2_raw ab pd N e p).bed_ebrt
      ↔ e = 0) := by
  refine ⟨rfl, rfl, ?_⟩
  simp only [bed_eqd2_raw, point_dose_bed_eqd2_raw]
  constructor
  · intro h
    have h2 : e * ((1 + 2 / ab) - (1 + (9 / 5) / ab)) = 0 := by
      rw [mul_sub, h]
      ring
    rcases mul_eq_zero.mp h2 with he | hd
    · exact he
    · exfalso
      have : (2 : α) / ab - (9 / 5) / ab = 0 := by linarith
      rw [div_sub_div_same] at this
      have h25 : (2 : α) - 9 / 5 = 1 / 5 := by norm_num
      rw [h25] at this
      have := (div_eq_zero_iff.mp this)
      rcases this with h5 | h0
      · norm_num at h5
      · exact hab h0
  · intro h
    rw [h]
    ring

/-- C9 witness: the amended statement at αβ = 3 with EBRT dose 45, via
`C9_ebrt_conventions`. -/
theorem C9_witness :
    (bed_eqd2_raw (3 : ℚ) 0 0 45 0).bed_ebrt = 45 * (1 + 2 / 3) ∧
    ((bed_eqd2_raw (3 : ℚ) 0 0 45 0).bed_ebrt
      = (point_dose_bed_eqd2_raw (3 : ℚ) 0 1 45 0).bed_ebrt ↔ (45 : ℚ) = 0) := by
  have h := C9_ebrt_conventions (3 : ℚ) 45 0 0 0 1 0 (by norm_num)
  exact ⟨h.1, h.2.2⟩

/-! Solver evaluation helpers. -/

/-- Evaluation rule for `solve_raw` when the discriminant is the square of an explicit
nonnegative `s` and the root is nonnegative. -/
lemma solve_raw_eval (ab T N e p s : ℝ) (hs : 0 ≤ s)
    (hdisc : N ^ 2 - 4 * (N / ab) * -(T * (1 + 2 / ab) - e * (1 + 2 / ab) - p) = s ^ 2)
    (hd : 0 ≤ (-N + s) / (2 * (N / ab))) :
    solve_raw ab T N e p = some ((-N + s) / (2 * (N / ab))) := by
  simp only [solve_raw]
  rw [hdisc, if_neg (not_lt.mpr (sq_nonneg s)), Real.sqrt_sq hs, if_neg (not_lt.mpr hd)]

/-- With a strictly negative remaining BED budget the solver returns `None`: either the
discriminant is negative, or the positive-root branch produces a negative dose and the
final sign check rejects it. -/
lemma solve_raw_neg_budget (ab T N e p : ℝ) (hab : 0 < ab) (hN : 0 < N)
    (hB : T * (1 + 2 / ab) - e * (1 + 2 / ab) - p < 0) :
    solve_raw ab T N e p = none := by
  simp only [solve_raw]
  by_cases hlt :
    N ^ 2 - 4 * (N / ab) * -(T * (1 + 2 / ab) - e * (1 + 2 / ab) - p) < 0
  · rw [if_pos hlt]
  · rw [if_neg hlt]
    have ha : (0 : ℝ) < N / ab := div_pos hN hab
    have hB' : (0 : ℝ) < -(T * (1 + 2 / ab) - e * (1 + 2 / ab) - p) := by linarith
    have hd2 : N ^ 2 - 4 * (N / ab) * -(T * (1 + 2 / ab) - e * (1 + 2 / ab) - p)
        < N ^ 2 := by nlinarith [mul_pos ha hB']
    have hsq :
        Real.sqrt (N ^ 2 - 4 * (N / ab) * -(T * (1 + 2 / ab) - e * (1 + 2 / ab) - p))
          < N := by
      rw [Real.sqrt_lt' hN]
      exact hd2
    have hneg :
        (-N + Real.sqrt
            (N ^ 2 - 4 * (N / ab) * -(T * (1 + 2 / ab) - e * (1 + 2 / ab) - p)))
          / (2 * (N / ab)) < 0 :=
      div_neg_of_neg_of_pos (by linarith) (by positivity)
    rw [if_pos hneg]

/-- With a remaining BED budget of exactly zero the solver returns dose 0. -/
lemma solve_raw_zero_budget (ab T N e p : ℝ) (_hab : 0 < ab) (hN : 0 < N)
    (hB : T * (1 + 2 / ab) - e * (1 + 2 / ab) - p = 0) :
    solve_raw ab T N e p = some 0 := by
  have h := solve_raw_eval ab T N e p N hN.le (by rw [hB]; ring)
    (by rw [neg_add_cancel, zero_div])
  rw [h, neg_add_cancel, zero_div]

/-! Claim C3: solver behaviour on an exhausted budget. -/

/-- C3 counterexample: with αβ = 3, EQD2 limit 0, one fraction and EBRT dose 3 Gy the
remaining budget is -5 Gy (strictly negative), and the solver returns `None` — the same
value as its "no solution" report — not an allowed dose of 0. -/
theorem C3_counterexample :
    calculate_dose_to_meet_constraint [("Default", (3 : ℝ))] 0 "Bladder" 1 3 0 = none ∧
    (none : Option ℝ) ≠ some (0 : ℝ) := by
  constructor
  · have hl : lookupAB [("Default", (3 : ℝ))] "Bladder" = 3 := by
      simp [lookupAB, List.lookup]
    have h := solve_raw_neg_budget 3 0 1 3 0 (by norm_num) (by norm_num) (by norm_num)
    simp only [calculate_dose_to_meet_constraint, hl, h, Option.map_none']
  · simp

/-- C3 (amended): for every table resolving the organ to αβ > 0 and fraction count
N > 0, a strictly negative remaining BED budget makes the solver return `None` — the
very report used for "no solution", with no distinct "constraint already exceeded"
marker and no dose 0 — while a budget of exactly zero returns dose 0; no branch yields
NaN (the embedding is total on these inputs). -/
theorem C3_budget_cases (table : List (String × ℝ)) (organ : String) (ab T N e p : ℝ)
    (hl : lookupAB table organ = ab) (hab : 0 < ab) (hN : 0 < N) :
    (T * (1 + 2 / ab) - e * (1 + 2 / ab) - p < 0 →
      calculate_dose_to_meet_constraint table T organ N e p = none) ∧
    (T * (1 + 2 / ab) - e * (1 + 2 / ab) - p = 0 →
      calculate_dose_to_meet_constraint table T organ N e p = some 0) := by
  constructor
  · intro hB
    simp only [calculate_dose_to_meet_constraint, hl,
      solve_raw_neg_budget ab T N e p hab hN hB, Option.map_none']
  · intro hB
    simp only [calculate_dose_to_meet_constraint, hl,
      solve_raw_zero_budget ab T N e p hab hN hB, Option.map_some']
    rw [round2_eq_self 0 0 (by norm_num)]

/-- C3 witness: both budget cases at concrete inputs, via `C3_budget_cases`. -/
theorem C3_witness :
    calculate_dose_to_meet_constraint [("Default", (3 : ℝ))] 0 "Bladder" 1 3 0 = none ∧
    calculate_dose_to_meet_constraint [("Default", (3 : ℝ))] 3 "Bladder" 1 3 0 = some 0 := by
  have hl : lookupAB [("Default", (3 : ℝ))] "Bladder" = 3 := by
    simp [lookupAB, List.lookup]
  have h1 := C3_budget_cases [("Default", (3 : ℝ))] "Bladder" 3 0 1 3 0 hl (by norm_num)
    (by norm_num)
  have h2 := C3_budget_cases [("Default", (3 : ℝ))] "Bladder" 3 3 1 3 0 hl (by norm_num)
    (by norm_num)
  exact ⟨h1.1 (by norm_num), h2.2 (by norm_num)⟩

/-! Claim C2: the solver/converter round trip. -/

/-- C2 counterexample: with αβ = 3, N = 1, no EBRT/prior and target EQD2
10136253/937500 Gy (≈ 10.812), the solver's exact root is 6.004 Gy but it returns the
rounded 6.00 Gy; feeding that back through the converter gives EQD2 10.8 Gy, which
misses the original target by 0.012 Gy > 1e-3 Gy. -/
theorem C2_counterexample :
    calculate_dose_to_meet_constraint [("Default", (3 : ℝ))] (10136253 / 937500)
      "Bladder" 1 0 0 = some 6 ∧
    (calculate_bed_and_eqd2 [("Default", (3 : ℝ))] (1 * 6) 6 "Bladder" 0 0).eqd2 = 54 / 5 ∧
    ¬ (|(54 : ℝ) / 5 - 10136253 / 937500| ≤ 1 / 1000) := by
  have hl : lookupAB [("Default", (3 : ℝ))] "Bladder" = 3 := by
    simp [lookupAB, List.lookup]
  refine ⟨?_, ?_, ?_⟩
  · have h := solve_raw_eval 3 (10136253 / 937500) 1 0 0 (1876 / 375) (by norm_num)
      (by norm_num) (by norm_num)
    have harg : (-1 + 1876 / 375) / (2 * ((1 : ℝ) / 3)) = 1501 / 250 := by norm_num
    simp only [calculate_dose_to_meet_constraint, hl, h, Option.map_some']
    rw [harg, round2_eq_low (1501 / 250 : ℝ) 600 (by norm_num) (by norm_num)]
    norm_num
  · simp only [calculate_bed_and_eqd2, hl]
    have hraw : (bed_eqd2_raw (3 : ℝ) (1 * 6) 6 0 0).eqd2 = 54 / 5 := by
      simp only [bed_eqd2_raw]
      norm_num
    rw [hraw, round2_eq_self (54 / 5) 1080 (by norm_num)]
  · rw [abs_of_nonpos (by norm_num)]
    norm_num

/-- C2 (amended): without the two-decimal roundings the round trip is exact — for every
αβ > 0, fraction count N > 0, EBRT dose, prior BED and target EQD2, if the solver's
unrounded computation (`solve_raw`) returns a dose d, then the converter's unrounded
EQD2 at total dose N·d and per-fraction dose d is exactly the original target (hence
within 1e-3 Gy of it). -/
theorem C2_round_trip_raw (ab T N e p d : ℝ) (hab : 0 < ab) (hN : 0 < N)
    (hs : solve_raw ab T N e p = some d) :
    (bed_eqd2_raw ab (N * d) d e p).eqd2 = T := by
  have ha : (0 : ℝ) < N / ab := div_pos hN hab
  have hk : (0 : ℝ) < 1 + 2 / ab := by positivity
  have hab' : ab ≠ 0 := ne_of_gt hab
  simp only [solve_raw] at hs
  by_cases h1 :
    N ^ 2 - 4 * (N / ab) * -(T * (1 + 2 / ab) - e * (1 + 2 / ab) - p) < 0
  · rw [if_pos h1] at hs
    exact absurd hs (by simp)
  · rw [if_neg h1] at hs
    set s := Real.sqrt
      (N ^ 2 - 4 * (N / ab) * -(T * (1 + 2 / ab) - e * (1 + 2 / ab) - p)) with hsdef
    by_cases h2 : (-N + s) / (2 * (N / ab)) < 0
    · rw [if_pos h2] at hs
      exact absurd hs (by simp)
    · rw [if_neg h2] at hs
      have hd : d = (-N + s) / (2 * (N / ab)) := (Option.some.inj hs).symm
      have hs2 : s ^ 2
          = N ^ 2 - 4 * (N / ab) * -(T * (1 + 2 / ab) - e * (1 + 2 / ab) - p) := by
        rw [hsdef]
        exact Real.sq_sqrt (not_lt.mp h1)
      have h2a : (2 * (N / ab)) ≠ 0 := by positivity
      have hds : d * (2 * (N / ab)) = -N + s := by
        rw [hd]
        field_simp
      have hsub : s = d * (2 * (N / ab)) + N := by linarith
      rw [hsub] at hs2
      have key : (N / ab) * d ^ 2 + N * d
          = T * (1 + 2 / ab) - e * (1 + 2 / ab) - p := by
        apply mul_left_cancel₀ (show (4 : ℝ) * (N / ab) ≠ 0 by positivity)
        linear_combination hs2
      have hbrachy : N * d * (1 + d / ab) = (N / ab) * d ^ 2 + N * d := by
        field_simp
        ring
      simp only [bed_eqd2_raw]
      rw [hbrachy, key]
      field_simp
      ring

/-- C2 witness: the exact round trip at αβ = 3, N = 1, target EQD2 10.8 Gy (solver root
exactly 6 Gy), via `C2_round_trip_raw`. -/
theorem C2_witness :
    solve_raw 3 (54 / 5) 1 0 0 = some 6 ∧
    (bed_eqd2_raw (3 : ℝ) (1 * 6) 6 0 0).eqd2 = 54 / 5 := by
  have hsolve : solve_raw 3 (54 / 5) 1 0 0 = some 6 := by
    have h := solve_raw_eval 3 (54 / 5) 1 0 0 5 (by norm_num) (by norm_num) (by norm_num)
    rw [h]
    norm_num
  exact ⟨hsolve, C2_round_trip_raw 3 (54 / 5) 1 0 0 6 (by norm_num) (by norm_num) hsolve⟩

/-! Claim C6: orientation of the in-plane pixel-spacing division. -/

/-- C6: evaluation of the transform at the failing input pixel_spacing = (2, 1)
(row spacing 2 mm, column spacing 1 mm), identity orientation, zero origin, contour
point (4, 6, 0) mm.  The code divides the in-plane x component by pixel_spacing[0]
(the row spacing) and y by pixel_spacing[1] (the column spacing), returning voxel
x index 4/2 = 2 — whereas the claim requires x / column_spacing = 4/1 = 4. -/
theorem C6_failing_input :
    transform_contour_to_dose_grid [[⟨4, 6, 0⟩]] ⟨0, 0, 0⟩ (2, 1)
      (⟨1, 0, 0⟩, ⟨0, 1, 0⟩) = some [[⟨2, 6, 0⟩]] ∧ (2 : ℚ) ≠ 4 / 1 := by
  constructor
  · norm_num [transform_contour_to_dose_grid, invAffine, inv3, det3, rotationMatrix,
      crossVec, mulVec, transform_points]
  · norm_num

/-! Claim C7: singularity handling of the geometry transform. -/

/-- Determinant of the code's rotation matrix: the squared euclidean length of the
cross product of the two orientation vectors. -/
lemma det3_rotationMatrix (r c : Vec3) :
    det3 (rotationMatrix r c)
      = (crossVec r c).x ^ 2 + (crossVec r c).y ^ 2 + (crossVec r c).z ^ 2 := by
  simp only [det3, rotationMatrix, crossVec]
  ring

/-- The inverse fails exactly on determinant zero. -/
lemma inv3_eq_none_iff (m : Mat3) : inv3 m = none ↔ det3 m = 0 := by
  simp only [inv3]
  split_ifs with h
  · simpa using h
  · simpa using h

/-- C7 counterexample: for the near-parallel orientation vectors (1,0,0) and
(1, 1e-6, 0) the cross product is (0, 0, 1e-6) — near-zero length but nonzero — and the
transform succeeds (silently inverts the near-singular matrix) instead of failing; no
`GeometryError` exists in the code. -/
theorem C7_counterexample :
    crossVec ⟨1, 0, 0⟩ ⟨1, 1 / 1000000, 0⟩ ≠ ⟨0, 0, 0⟩ ∧
    (transform_contour_to_dose_grid [[⟨0, 0, 10⟩]] ⟨0, 0, 0⟩ (1, 1)
      (⟨1, 0, 0⟩, ⟨1, 1 / 1000000, 0⟩)).isSome = true := by
  constructor
  · intro h
    norm_num [crossVec] at h
  · norm_num [transform_contour_to_dose_grid, invAffine, inv3, det3, rotationMatrix,
      crossVec]

/-- C7 (amended): the code performs no near-singularity check and raises no
`GeometryError`: the transform fails (numpy's inversion error, modelled as `none`) if
and only if the cross product of the orientation vectors is exactly zero; every
orientation with nonzero — however small — cross product is silently inverted. -/
theorem C7_singular_iff (contour_data : List (List Vec3)) (image_position : Vec3)
    (pixel_spacing : ℚ × ℚ) (r c : Vec3) :
    transform_contour_to_dose_grid contour_data image_position pixel_spacing (r, c) = none
      ↔ crossVec r c = ⟨0, 0, 0⟩ := by
  unfold transform_contour_to_dose_grid invAffine
  rw [Option.map_eq_none', Option.map_eq_none', inv3_eq_none_iff, det3_rotationMatrix]
  constructor
  · intro h
    rcases hcv : crossVec r c with ⟨ux, uy, uz⟩
    rw [hcv] at h
    simp only at h
    have hx : ux = 0 := by nlinarith [sq_nonneg ux, sq_nonneg uy, sq_nonneg uz]
    have hy : uy = 0 := by nlinarith [sq_nonneg ux, sq_nonneg uy, sq_nonneg uz]
    have hz : uz = 0 := by nlinarith [sq_nonneg ux, sq_nonneg uy, sq_nonneg uz]
    rw [hx, hy, hz]
  · intro h
    rw [h]
    norm_num

/-! Claim C4: the "hottest 2 cc" metric. -/

/-- C4 (amended): for every extracted dose population and voxel volume, when the organ
volume (voxel count times voxel volume) is at least 2 cc the metric is the dose at
index `round(2 / voxel_volume_cc) - 1` of the descending-sorted population; when the
volume is below 2 cc the metric is a bare 0 — and the returned record consists only of
the three rounded numbers (volume, metric, metric times fractions), with no
caller-visible flag distinguishing "not computable" from "computed as zero". -/
theorem C4_d2cc_cases (organ_doses : List ℚ) (voxel_volume_cc number_of_fractions : ℚ) :
    (2 ≤ (organ_doses.length : ℚ) * voxel_volume_cc →
      d2cc_from_doses organ_doses voxel_volume_cc
        = pyIndex (sortDesc organ_doses) (pyround (2 / voxel_volume_cc) - 1)) ∧
    ((organ_doses.length : ℚ) * voxel_volume_cc < 2 →
      d2cc_from_doses organ_doses voxel_volume_cc = 0) ∧
    dvh_entry organ_doses voxel_volume_cc number_of_fractions
      = ⟨round2 ((organ_doses.length : ℚ) * voxel_volume_cc),
         round2 (d2cc_from_doses organ_doses voxel_volume_cc),
         round2 (d2cc_from_doses organ_doses voxel_volume_cc * number_of_fractions)⟩ := by
  refine ⟨fun h => ?_, fun h => ?_, rfl⟩
  · simp only [d2cc_from_doses, if_pos h]
  · simp only [d2cc_from_doses, if_neg (not_le.mpr h)]

/-- C4 witness: both branches of `C4_d2cc_cases` at concrete inputs. -/
theorem C4_witness :
    d2cc_from_doses [7, 7] 1 = pyIndex (sortDesc [7, 7]) (pyround ((2 : ℚ) / 1) - 1) ∧
    d2cc_from_doses [5] 1 = 0 := by
  exact ⟨(C4_d2cc_cases [7, 7] 1 1).1 (by norm_num),
    (C4_d2cc_cases [5] 1 1).2.1 (by norm_num)⟩

/-- C4 counterexample: a structure of volume 1 cc (metric undefined, "not computable")
and a structure of volume 2 cc whose voxel doses are all 0 ("computed as zero") both
return the same bare metric value 0, and the record of the undersized structure is just
the numbers (1, 0, 0) — no flag exists. -/
theorem C4_counterexample :
    d2cc_from_doses [5] 1 = 0 ∧ d2cc_from_doses [0, 0] 1 = 0 ∧
    d2cc_from_doses [5] 1 = d2cc_from_doses [0, 0] 1 ∧
    dvh_entry [5] 1 1 = ⟨1, 0, 0⟩ := by
  have h1 : d2cc_from_doses [5] 1 = 0 := by
    norm_num [d2cc_from_doses]
  have hpr : pyround ((2 : ℚ) / 1) = 2 := by
    rw [show ((2 : ℚ) / 1) = ((2 : ℤ) : ℚ) by norm_num, pyround_intCast]
  have h2 : d2cc_from_doses [0, 0] 1 = 0 := by
    simp only [d2cc_from_doses]
    rw [if_pos (by norm_num), hpr]
    norm_num [pyIndex, sortDesc, insertDesc]
  refine ⟨h1, h2, h1.trans h2.symm, ?_⟩
  simp only [dvh_entry, h1]
  have hv : ((List.length [(5 : ℚ)] : ℚ)) * 1 = 1 := by norm_num
  rw [hv, round2_eq_self 1 100 (by norm_num), round2_eq_self 0 0 (by norm_num),
    show ((0 : ℚ) * 1) = 0 by norm_num, round2_eq_self 0 0 (by norm_num)]

/-! Claim C8: the volume integrator. -/

/-- Spec-shaped per-level area, using the cyclic shoelace formula of the
specification's words. -/
def areaAt_spec (contours : List (List Vec3)) (z : ℚ) : ℚ :=
  ((contours.filter fun c => zKey c = z).map fun c =>
    shoelace_spec (c.map fun p => (p.x, p.y))).sum

lemma dotL_comm (a b : List ℚ) : dotL a b = dotL b a := by
  unfold dotL
  rw [List.zipWith_comm_of_comm _ mul_comm]

lemma getLastD_cons_eq_getLast (x d : ℚ) (xs : List ℚ) :
    (x :: xs).getLastD d = (x :: xs).getLast (List.cons_ne_nil x xs) := by
  induction xs generalizing x d with
  | nil => rfl
  | cons y ys ih =>
    rw [List.getLastD_cons, ih y x, List.getLast_cons (List.cons_ne_nil y ys)]

lemma dotL_rollRight (a b : List ℚ) (h : a.length = b.length) :
    dotL a (rollRight b) = dotL (a.rotate 1) b := by
  cases a with
  | nil =>
    simp [dotL, rollRight]
  | cons a0 as =>
    cases b with
    | nil => simp at h
    | cons b0 bs =>
      rw [List.rotate_cons_succ, List.rotate_zero]
      have hne : (b0 :: bs) ≠ [] := List.cons_ne_nil b0 bs
      have hb : (b0 :: bs).dropLast ++ [(b0 :: bs).getLast hne] = b0 :: bs :=
        List.dropLast_append_getLast hne
      have hlen : as.length = (b0 :: bs).dropLast.length := by
        rw [List.length_dropLast]
        simp only [List.length_cons] at h ⊢
        omega
      conv_rhs => rw [← hb]
      show dotL (a0 :: as) ((b0 :: bs).getLastD 0 :: (b0 :: bs).dropLast) = _
      rw [getLastD_cons_eq_getLast]
      unfold dotL
      rw [List.zipWith_append _ _ _ _ _ hlen, List.sum_append]
      simp only [List.zipWith_cons_cons, List.sum_cons, List.zipWith_nil_left,
        List.zipWith_nil_right, List.sum_nil]
      ring_nf
      rw [add_comm]

lemma shoelace_eq_spec (poly : List (ℚ × ℚ)) : shoelace poly = shoelace_spec poly := by
  simp only [shoelace, shoelace_spec]
  have hlen : (poly.map Prod.fst).length = (poly.map Prod.snd).length := by simp
  rw [dotL_rollRight _ _ hlen, dotL_rollRight _ _ hlen.symm,
    dotL_comm ((poly.map Prod.snd).rotate 1) (poly.map Prod.fst), abs_sub_comm]

lemma areaAt_eq_spec (contours : List (List Vec3)) (z : ℚ) :
    areaAt contours z = areaAt_spec contours z := by
  unfold areaAt areaAt_spec
  simp only [shoelace_eq_spec]

lemma insertAsc_length (a : ℚ) (l : List ℚ) : (insertAsc a l).length = l.length + 1 := by
  induction l with
  | nil => rfl
  | cons b t ih =>
    unfold insertAsc
    split_ifs with h
    · simp
    · simp only [List.length_cons, ih]

lemma sortAsc_length (l : List ℚ) : (sortAsc l).length = l.length := by
  induction l with
  | nil => rfl
  | cons a t ih =>
    unfold sortAsc at ih ⊢
    simp only [List.foldr_cons, insertAsc_length, ih, List.length_cons]

/-- C8: the volume integrator (i) equals the trapezoidal sum over adjacent sorted
z-levels of the spec's cyclic-shoelace slice areas, divided by 1000; (ii) returns
exactly 40 × 30 × 5 / 1000 = 6 cm³ for a 40mm × 30mm rectangle contoured on two slices
5 mm apart (exact, hence within the claimed 0.1%); and (iii) returns volume 0, not an
error, for a structure with at most one contoured z-level. -/
theorem C8_volume_trapezoid :
    (∀ contours : List (List Vec3),
      contour_volume_cc contours
        = (((sortAsc (zLevels contours)).zip (sortAsc (zLevels contours)).tail).map
            fun q => (areaAt_spec contours q.1 + areaAt_spec contours q.2) / 2
              * |q.1 - q.2|).sum / 1000) ∧
    contour_volume_cc
      [[⟨0, 0, 0⟩, ⟨40, 0, 0⟩, ⟨40, 30, 0⟩, ⟨0, 30, 0⟩],
       [⟨0, 0, 5⟩, ⟨40, 0, 5⟩, ⟨40, 30, 5⟩, ⟨0, 30, 5⟩]] = 6 ∧
    (∀ contours : List (List Vec3), (zLevels contours).length ≤ 1 →
      contour_volume_cc contours = 0) := by
  refine ⟨fun contours => ?_, ?_, fun contours h => ?_⟩
  · simp only [contour_volume_cc, areaAt_eq_spec]
  · have hz0 : round4 ((0 : ℚ)) = 0 := round4_eq_self 0 0 (by norm_num)
    have hz5 : round4 ((5 : ℚ)) = 5 := round4_eq_self 5 50000 (by norm_num)
    have hzk0 : zKey [(⟨0, 0, 0⟩ : Vec3), ⟨40, 0, 0⟩, ⟨40, 30, 0⟩, ⟨0, 30, 0⟩] = 0 := by
      simp [zKey, hz0]
    have hzk5 : zKey [(⟨0, 0, 5⟩ : Vec3), ⟨40, 0, 5⟩, ⟨40, 30, 5⟩, ⟨0, 30, 5⟩] = 5 := by
      simp [zKey, hz5]
    have hsh0 : shoelace ([(0, 0), (40, 0), (40, 30), (0, 30)] : List (ℚ × ℚ)) = 1200 := by
      norm_num [shoelace, dotL, rollRight, List.getLastD]
    simp only [contour_volume_cc, zLevels, List.map_cons, List.map_nil, hzk0, hzk5]
    rw [List.dedup_cons_of_not_mem (by norm_num), List.dedup_cons_of_not_mem (by norm_num),
      List.dedup_nil]
    simp only [sortAsc, List.foldr_cons, List.foldr_nil, insertAsc]
    norm_num [areaAt, hzk0, hzk5, List.filter_cons, hsh0, shoelace, dotL, rollRight,
      List.getLastD]
  · have hlen : (sortAsc (zLevels contours)).length ≤ 1 := by
      rw [sortAsc_length]
      exact h
    cases hzs : sortAsc (zLevels contours) with
    | nil => simp [contour_volume_cc, hzs]
    | cons z t =>
      cases t with
      | nil => simp [contour_volume_cc, hzs]
      | cons z2 t2 =>
        exfalso
        rw [hzs] at hlen
        simp at hlen

/-- C8 witness: the rectangle instance and a single-slice structure, via
`C8_volume_trapezoid`. -/
theorem C8_witness :
    contour_volume_cc
      [[⟨0, 0, 0⟩, ⟨40, 0, 0⟩, ⟨40, 30, 0⟩, ⟨0, 30, 0⟩],
       [⟨0, 0, 5⟩, ⟨40, 0, 5⟩, ⟨40, 30, 5⟩, ⟨0, 30, 5⟩]] = 6 ∧
    contour_volume_cc [[⟨0, 0, 0⟩, ⟨40, 0, 0⟩, ⟨40, 30, 0⟩]] = 0 := by
  refine ⟨C8_volume_trapezoid.2.1, C8_volume_trapezoid.2.2 _ ?_⟩
  simp [zLevels]

/-! Claim C5: structures with an all-false mask. -/

lemma nodup_keys_eq {β : Type} {l : List (String × β)} (h : (l.map Prod.fst).Nodup)
    {k : String} {b1 b2 : β} (h1 : (k, b1) ∈ l) (h2 : (k, b2) ∈ l) : b1 = b2 := by
  induction l with
  | nil => cases h1
  | cons hd tl ih =>
    rw [List.map_cons, List.nodup_cons] at h
    rcases List.mem_cons.mp h1 with e1 | m1
    · rcases List.mem_cons.mp h2 with e2 | m2
      · rw [← e1] at e2
        injection e2 with _ hb
        exact hb.symm
      · exfalso
        have hnm := h.1
        rw [← e1] at hnm
        exact hnm (by simpa using List.mem_map_of_mem Prod.fst m2)
    · rcases List.mem_cons.mp h2 with e2 | m2
      · exfalso
        have hnm := h.1
        rw [← e2] at hnm
        exact hnm (by simpa using List.mem_map_of_mem Prod.fst m1)
      · exact ih h.2 m1 m2

/-- C5 (amended): a structure whose rasterized mask is all-false is skipped by the
`continue`: the per-structure records are returned with NO record at all for that
structure — not a record of zeros — and no exception is raised (the computation
completes and yields the remaining records). -/
theorem C5_empty_mask_no_record (fill : FillFn)
    (structure_data : List (String × List (List Vec3))) (dose_grid : NdGrid)
    (dose_scaling : ℚ) (image_position : Vec3) (pixel_spacing : ℚ × ℚ)
    (grid_frame_offset_vector : List ℚ) (number_of_fractions : ℚ)
    (image_orientation : Vec3 × Vec3) (Rt : Mat3 × Vec3)
    (hinv : invAffine image_orientation image_position = some Rt)
    (name : String) (cs : List (List Vec3)) (hmem : (name, cs) ∈ structure_data)
    (hnodup : (structure_data.map Prod.fst).Nodup)
    (hmask : create_mask_from_contours fill
      (cs.map (transform_points Rt.1 Rt.2 pixel_spacing))
      (dose_grid.n0, dose_grid.n1, dose_grid.n2) grid_frame_offset_vector = []) :
    ∃ out, get_dvh fill structure_data dose_grid dose_scaling image_position
        pixel_spacing grid_frame_offset_vector number_of_fractions image_orientation
        = some out ∧
      List.lookup name out = none := by
  simp only [get_dvh, hinv, Option.map_some']
  refine ⟨_, rfl, ?_⟩
  rw [List.lookup_eq_none_iff]
  intro rec hrec
  rw [List.mem_filterMap] at hrec
  obtain ⟨x, hx, hstep⟩ := hrec
  by_cases hmx : create_mask_from_contours fill
      (x.2.map (transform_points Rt.1 Rt.2 pixel_spacing))
      (dose_grid.n0, dose_grid.n1, dose_grid.n2) grid_frame_offset_vector = []
  · rw [if_pos hmx] at hstep
    cases hstep
  · rw [if_neg hmx] at hstep
    have hrec1 : rec.1 = x.1 := by
      rw [← Option.some.inj hstep]
    rw [bne_iff_ne, hrec1]
    intro heq
    have hx' : (name, x.2) ∈ structure_data := by
      rw [heq]
      exact hx
    have hcs : x.2 = cs := nodup_keys_eq hnodup hx' hmem
    rw [hcs] at hmx
    exact hmx hmask

/-- C5 witness: a concrete structure whose polygon fill produces no voxels is dropped
from the result set, via `C5_empty_mask_no_record`. -/
theorem C5_witness :
    ∃ out, get_dvh (fun _ _ _ => []) [("A", [[⟨0, 0, 0⟩, ⟨1, 0, 0⟩, ⟨1, 1, 0⟩]])]
        ⟨1, 1, 1, fun _ _ _ => 1⟩ 1 ⟨0, 0, 0⟩ (1, 1) [0, 5] 1 (⟨1, 0, 0⟩, ⟨0, 1, 0⟩)
        = some out ∧
      List.lookup "A" out = none := by
  have hinv : invAffine ((⟨1, 0, 0⟩, ⟨0, 1, 0⟩) : Vec3 × Vec3) ⟨0, 0, 0⟩
      = some (⟨1, 0, 0, 0, 1, 0, 0, 0, 1⟩, ⟨0, 0, 0⟩) := by
    norm_num [invAffine, inv3, det3, rotationMatrix, crossVec, mulVec]
  exact C5_empty_mask_no_record (fun _ _ _ => []) _ _ _ _ _ _ _ _ _ hinv "A" _
    (List.mem_singleton.mpr rfl) (by simp)
    (by simp [create_mask_from_contours, contourPixels])

/-- C5 counterexample: the same concrete structure — mask all-false because the fill
returns no voxels — yields `some []`: the result set is produced without exception but
contains NO record for the structure, contradicting "a result record with all dose
metrics equal to 0, never a missing record". -/
theorem C5_counterexample :
    get_dvh (fun _ _ _ => []) [("A", [[⟨0, 0, 0⟩, ⟨1, 0, 0⟩, ⟨1, 1, 0⟩]])]
      ⟨1, 1, 1, fun _ _ _ => 1⟩ 1 ⟨0, 0, 0⟩ (1, 1) [0, 5] 1 (⟨1, 0, 0⟩, ⟨0, 1, 0⟩)
      = some [] := by
  have hinv : invAffine ((⟨1, 0, 0⟩, ⟨0, 1, 0⟩) : Vec3 × Vec3) ⟨0, 0, 0⟩
      = some (⟨1, 0, 0, 0, 1, 0, 0, 0, 1⟩, ⟨0, 0, 0⟩) := by
    norm_num [invAffine, inv3, det3, rotationMatrix, crossVec, mulVec]
  simp only [get_dvh, hinv, Option.map_some', Option.some.injEq]
  rw [List.filterMap_cons]
  simp [create_mask_from_contours, contourPixels]

/-! Claim C10: point dose lookup guards. -/

/-- C10: `get_dose_at_point` returns 0.0 when the dose grid is `None`, when the point
coordinates are empty, and when the nearest-neighbour-rounded voxel index is out of the
grid bounds on any axis; otherwise it returns the voxel dose times `dose_scaling` —
never an exception and never an out-of-bounds access. -/
theorem C10_point_dose_cases (dose_scaling : ℚ) (ipp : Vec3) (ps : ℚ × ℚ)
    (gfov : List ℚ) (g : NdGrid) (p : Vec3) :
    (∀ pt, get_dose_at_point none dose_scaling ipp ps gfov pt = 0) ∧
    (∀ dg, get_dose_at_point dg dose_scaling ipp ps gfov none = 0) ∧
    (let spacing_z := if gfov.length > 1 then gfov.getD 1 0 - gfov.getD 0 0 else 1
     let idx_x := pyround ((p.x - ipp.x) / ps.1)
     let idx_y := pyround ((p.y - ipp.y) / ps.2)
     let idx_z := pyround ((p.z - gfov.getD 0 0) / spacing_z)
     (¬ (0 ≤ idx_x ∧ idx_x < (g.n2 : ℤ) ∧ 0 ≤ idx_y ∧ idx_y < (g.n1 : ℤ) ∧
          0 ≤ idx_z ∧ idx_z < (g.n0 : ℤ)) →
        get_dose_at_point (some g) dose_scaling ipp ps gfov (some p) = 0) ∧
     ((0 ≤ idx_x ∧ idx_x < (g.n2 : ℤ) ∧ 0 ≤ idx_y ∧ idx_y < (g.n1 : ℤ) ∧
          0 ≤ idx_z ∧ idx_z < (g.n0 : ℤ)) →
        get_dose_at_point (some g) dose_scaling ipp ps gfov (some p)
          = g.val idx_z.toNat idx_y.toNat idx_x.toNat * dose_scaling)) := by
  refine ⟨fun pt => ?_, fun dg => ?_, fun hoob => ?_, fun hin => ?_⟩
  · cases pt <;> rfl
  · cases dg <;> rfl
  · simp only [get_dose_at_point]
    rw [if_neg hoob]
  · simp only [get_dose_at_point]
    rw [if_pos hin]

/-- C10 witness: a 1×1×1 grid of voxel value 7 with scaling 2 — the in-grid point gives
14, a point rounding to voxel x-index 10 is out of bounds and gives 0; both via
`C10_point_dose_cases`. -/
theorem C10_witness :
    get_dose_at_point (some ⟨1, 1, 1, fun _ _ _ => 7⟩) 2 ⟨0, 0, 0⟩ (1, 1) [0, 1]
      (some ⟨0, 0, 0⟩) = 14 ∧
    get_dose_at_point (some ⟨1, 1, 1, fun _ _ _ => 7⟩) 2 ⟨0, 0, 0⟩ (1, 1) [0, 1]
      (some ⟨10, 0, 0⟩) = 0 := by
  have hq0 : pyround ((0 : ℚ)) = 0 := by
    rw [show ((0 : ℚ)) = ((0 : ℤ) : ℚ) by norm_num, pyround_intCast]
  have hq10 : pyround ((10 : ℚ)) = 10 := by
    rw [show ((10 : ℚ)) = ((10 : ℤ) : ℚ) by norm_num, pyround_intCast]
  constructor
  · have h := (C10_point_dose_cases 2 ⟨0, 0, 0⟩ (1, 1) [0, 1] ⟨1, 1, 1, fun _ _ _ => 7⟩
      ⟨0, 0, 0⟩).2.2.2
    rw [h (by norm_num [hq0])]
    norm_num [hq0]
  · have h := (C10_point_dose_cases 2 ⟨0, 0, 0⟩ (1, 1) [0, 1] ⟨1, 1, 1, fun _ _ _ => 7⟩
      ⟨10, 0, 0⟩).2.2.1
    apply h
    intro hb
    have hx := hb.2.1
    norm_num [hq10] at hx
